import Mathlib

/-!
Verification of the `arcane-cli` frame encoder (`parse_write` in `src/main.rs`).

The encoder turns a textual command line `write <node_id> <param_index> <param_value>`
into an 11-byte frame `[0x07, node_id, param_index, payload_length, payload..., padding]`,
or a typed error.  Bytes are modelled as `Nat` values below 256, byte sequences as
`List Nat`, and the three Rust error messages as the constructors of `EncodeError`.
-/

namespace Arcane

/-- The three failure modes of `parse_write`, in the order they appear in the source:
`anyhow!("Invalid command format")`, `anyhow!("Invalid node_id, param_index, or param_value")`,
`anyhow!("Payload exceeds maximum length of 7 bytes")`. -/
inductive EncodeError where
  | MalformedCommand
  | InvalidField
  | PayloadTooLarge
deriving DecidableEq

/-- Rust `char::is_whitespace`: the Unicode `White_Space` property, spelled out
over the code point. -/
def isRustWhitespace (c : Char) : Bool :=
  c.toNat = 0x09 || c.toNat = 0x0A || c.toNat = 0x0B || c.toNat = 0x0C ||
  c.toNat = 0x0D || c.toNat = 0x20 || c.toNat = 0x85 || c.toNat = 0xA0 ||
  c.toNat = 0x1680 || (0x2000 ≤ c.toNat && c.toNat ≤ 0x200A) ||
  c.toNat = 0x2028 || c.toNat = 0x2029 || c.toNat = 0x202F ||
  c.toNat = 0x205F || c.toNat = 0x3000

/-- Helper for `splitWS`: `acc` holds the characters of the current token,
reversed. -/
def splitWSAux : List Char → List Char → List (List Char)
  | [], acc => if acc.isEmpty then [] else [acc.reverse]
  | c :: cs, acc =>
    if isRustWhitespace c then
      if acc.isEmpty then splitWSAux cs []
      else acc.reverse :: splitWSAux cs []
    else splitWSAux cs (c :: acc)

/-- Rust `str::split_whitespace().collect()`: split on runs of whitespace,
discarding empty substrings. -/
def splitWS (s : List Char) : List (List Char) :=
  splitWSAux s []

/-- The numeric value of an ASCII decimal digit, `char::to_digit(10)`. -/
def digitVal (c : Char) : Option Nat :=
  if 48 ≤ c.toNat ∧ c.toNat ≤ 57 then some (c.toNat - 48) else none

/-- Accumulate decimal digits left to right; fails on any non-digit. -/
def parseDigitsFrom : List Char → Nat → Option Nat
  | [], acc => some acc
  | c :: cs, acc =>
    match digitVal c with
    | some d => parseDigitsFrom cs (acc * 10 + d)
    | none => none

/-- Rust `str::parse::<uN>()` for an unsigned integer type with maximum value
`maxVal`: an optional leading `+`, then one or more decimal digits, and the
value must fit (overflow is an error).  A leading `-` is not accepted for
unsigned types, so `"-1"` fails. -/
def parseUnsigned (maxVal : Nat) (s : List Char) : Option Nat :=
  let body : List Char :=
    match s with
    | '+' :: rest => rest
    | _ => s
  match body with
  | [] => none
  | _ :: _ =>
    match parseDigitsFrom body 0 with
    | some n => if n ≤ maxVal then some n else none
    | none => none

/-- Rust `u64::to_be_bytes`: the eight big-endian bytes of `v` (callers pass
`v < 2^64`). -/
def toBeBytes (v : Nat) : List Nat :=
  [v / 2 ^ 56 % 256, v / 2 ^ 48 % 256, v / 2 ^ 40 % 256, v / 2 ^ 32 % 256,
   v / 2 ^ 24 % 256, v / 2 ^ 16 % 256, v / 2 ^ 8 % 256, v % 256]

/-- The `while data.len() < 11 { data.push(0x00) }` padding loop. -/
def padTo11 (data : List Nat) : List Nat :=
  data ++ List.replicate (11 - data.length) 0

/-- `parse_write` from `src/main.rs`: split the command on whitespace; require
exactly 4 tokens (else `MalformedCommand`); parse tokens 1–3 as `u8`, `u8`,
`u64` (else `InvalidField`); take the big-endian bytes of `param_value` and
`retain` only the nonzero ones (the source's `retain(|&x| x != 0)` keeps every
nonzero byte, dropping interior and trailing zero bytes as well as leading
ones); fail with `PayloadTooLarge` if more than 7 bytes remain; otherwise emit
`[0x07, node_id, param_index, payload_length] ++ payload` padded with zeros to
11 bytes. -/
def parse_write (command : String) : Except EncodeError (List Nat) :=
  match splitWS command.data with
  | [_, t1, t2, t3] =>
    match parseUnsigned 255 t1, parseUnsigned 255 t2, parseUnsigned (2 ^ 64 - 1) t3 with
    | some node_id, some param_index, some param_value =>
      if 7 < ((toBeBytes param_value).filter (fun b => b != 0)).length then
        .error .PayloadTooLarge
      else
        .ok (padTo11 ([0x07, node_id, param_index,
              ((toBeBytes param_value).filter (fun b => b != 0)).length] ++
              (toBeBytes param_value).filter (fun b => b != 0)))
    | _, _, _ => .error .InvalidField
  | _ => .error .MalformedCommand

/-- Modelled from the spec: decoding `data[4..4+data[3]]` as a big-endian
unsigned integer (left-padding with zero bytes does not change the value). -/
def decodeBE (bytes : List Nat) : Nat :=
  bytes.foldl (fun acc b => 256 * acc + b) 0

/-- On a 4-token command whose three numeric fields parse and whose retained
payload fits in 7 bytes, `parse_write` succeeds with the padded frame. -/
theorem parse_write_ok_of (cmd : String) (t0 t1 t2 t3 : List Char) (n p v : Nat)
    (hs : splitWS cmd.data = [t0, t1, t2, t3])
    (h1 : parseUnsigned 255 t1 = some n) (h2 : parseUnsigned 255 t2 = some p)
    (h3 : parseUnsigned (2 ^ 64 - 1) t3 = some v)
    (hle : ((toBeBytes v).filter (fun b => b != 0)).length ≤ 7) :
    parse_write cmd = .ok (padTo11 ([0x07, n, p,
      ((toBeBytes v).filter (fun b => b != 0)).length] ++
      (toBeBytes v).filter (fun b => b != 0))) := by
  simp only [parse_write, hs, h1, h2, h3]
  rw [if_neg (by omega)]

/-- On a 4-token command whose three numeric fields parse and whose retained
payload exceeds 7 bytes, `parse_write` fails with `PayloadTooLarge`. -/
theorem parse_write_too_large (cmd : String) (t0 t1 t2 t3 : List Char) (n p v : Nat)
    (hs : splitWS cmd.data = [t0, t1, t2, t3])
    (h1 : parseUnsigned 255 t1 = some n) (h2 : parseUnsigned 255 t2 = some p)
    (h3 : parseUnsigned (2 ^ 64 - 1) t3 = some v)
    (hgt : 7 < ((toBeBytes v).filter (fun b => b != 0)).length) :
    parse_write cmd = .error .PayloadTooLarge := by
  simp only [parse_write, hs, h1, h2, h3]
  rw [if_pos hgt]

/-- Inversion: every successful run of `parse_write` comes from a 4-token
command whose fields parsed, and returns the padded frame. -/
theorem parse_write_ok_inv (cmd : String) (data : List Nat)
    (h : parse_write cmd = .ok data) :
    ∃ t0 t1 t2 t3 n p v, splitWS cmd.data = [t0, t1, t2, t3] ∧
      parseUnsigned 255 t1 = some n ∧ parseUnsigned 255 t2 = some p ∧
      parseUnsigned (2 ^ 64 - 1) t3 = some v ∧
      ((toBeBytes v).filter (fun b => b != 0)).length ≤ 7 ∧
      data = padTo11 ([0x07, n, p, ((toBeBytes v).filter (fun b => b != 0)).length] ++
        (toBeBytes v).filter (fun b => b != 0)) := by
  unfold parse_write at h
  split at h
  next a t1 t2 t3 heq =>
    split at h
    next n p v h1 h2 h3 =>
      split at h
      · exact absurd h (by simp)
      next hnot =>
        refine ⟨a, t1, t2, t3, n, p, v, heq, h1, h2, h3, by omega, ?_⟩
        exact (Except.ok.inj h).symm
    next o1 o2 o3 hne =>
      exact absurd h (by simp)
  next hne =>
    exact absurd h (by simp)

/-- The padded frame in head-normal form: four header bytes, then the payload,
then `7 - payload_length` zero bytes. -/
theorem padTo11_eq (a b c d : Nat) (vb : List Nat) :
    padTo11 ([a, b, c, d] ++ vb) =
      a :: b :: c :: d :: (vb ++ List.replicate (7 - vb.length) 0) := by
  simp only [padTo11, List.cons_append, List.nil_append, List.length_cons]
  have h : 11 - (vb.length + 1 + 1 + 1 + 1) = 7 - vb.length := by omega
  rw [h]

/-- Claim C9: on the concrete input `write 1 2 567`, encoding succeeds and
returns exactly the 11 bytes `[0x07, 0x01, 0x02, 0x02, 0x02, 0x37, 0x00, 0x00,
0x00, 0x00, 0x00]`. -/
theorem C9_concrete_frame :
    parse_write "write 1 2 567" =
      .ok [0x07, 0x01, 0x02, 0x02, 0x02, 0x37, 0x00, 0x00, 0x00, 0x00, 0x00] :=
  rfl

/-- Claim C1 (code bug): the round-trip fails on `write 1 1 256`.  The value
256 lies in `[0, 2^56 - 1]`, but the source's `retain(|&x| x != 0)` drops the
interior zero byte of `[0x01, 0x00]`, so the frame carries payload `[0x01]`
with `data[3] = 1`, and decoding `data[4..4+data[3]]` big-endian yields 1, not
256. -/
theorem C1_roundtrip_fails_at_256 :
    parse_write "write 1 1 256" =
      .ok [0x07, 0x01, 0x01, 0x01, 0x01, 0x00, 0x00, 0x00, 0x00, 0x00, 0x00] ∧
    decodeBE (([0x07, 0x01, 0x01, 0x01, 0x01, 0x00, 0x00, 0x00, 0x00, 0x00,
      0x00].drop 4).take 1) = 1 ∧ (1 : Nat) ≠ 256 := by
  refine ⟨rfl, by decide, by decide⟩

/-- Claim C2 (code bug): `write 255 255 72057594037927936` (param_value 2^56)
does not fail with `PayloadTooLarge`.  Because zero bytes are removed
everywhere, the big-endian bytes `[0x01, 0, 0, 0, 0, 0, 0, 0]` shrink to the
single byte `[0x01]` and the encoder returns a frame. -/
theorem C2_two_pow_56_accepted :
    parse_write "write 255 255 72057594037927936" =
      .ok [0x07, 0xFF, 0xFF, 0x01, 0x01, 0x00, 0x00, 0x00, 0x00, 0x00, 0x00] :=
  rfl

/-- Claim C3: for every input on which encoding succeeds, the returned byte
sequence has length exactly 11, regardless of the payload length. -/
theorem C3_frame_length (cmd : String) (data : List Nat)
    (h : parse_write cmd = .ok data) : data.length = 11 := by
  obtain ⟨t0, t1, t2, t3, n, p, v, hs, h1, h2, h3, hle, rfl⟩ :=
    parse_write_ok_inv cmd data h
  simp only [padTo11, List.length_append, List.cons_append, List.length_cons,
    List.nil_append, List.length_replicate]
  omega

/-- Witness for C3 at the concrete input `write 9 8 7`. -/
theorem C3_witness :
    parse_write "write 9 8 7" = .ok [7, 9, 8, 1, 7, 0, 0, 0, 0, 0, 0] ∧
    ([7, 9, 8, 1, 7, 0, 0, 0, 0, 0, 0] : List Nat).length = 11 :=
  ⟨rfl, C3_frame_length "write 9 8 7" [7, 9, 8, 1, 7, 0, 0, 0, 0, 0, 0] rfl⟩

/-- Claim C4: for every input on which encoding succeeds, byte 0 of the result
is the constant 0x07, byte 1 equals the parsed node_id, byte 2 equals the
parsed param_index, and byte 3 equals the payload length (the number of
payload bytes that follow). -/
theorem C4_frame_header (cmd : String) (t0 t1 t2 t3 : List Char) (n p v : Nat)
    (data : List Nat)
    (hs : splitWS cmd.data = [t0, t1, t2, t3])
    (h1 : parseUnsigned 255 t1 = some n) (h2 : parseUnsigned 255 t2 = some p)
    (h3 : parseUnsigned (2 ^ 64 - 1) t3 = some v)
    (hok : parse_write cmd = .ok data) :
    data[0]? = some 0x07 ∧ data[1]? = some n ∧ data[2]? = some p ∧
    data[3]? = some ((toBeBytes v).filter (fun b => b != 0)).length := by
  obtain ⟨a, b, c, d, n', p', v', hs', h1', h2', h3', hle', rfl⟩ :=
    parse_write_ok_inv cmd data hok
  rw [hs] at hs'
  obtain ⟨rfl, rfl, rfl, rfl⟩ : t0 = a ∧ t1 = b ∧ t2 = c ∧ t3 = d := by
    simpa using hs'
  rw [h1] at h1'; rw [h2] at h2'; rw [h3] at h3'
  obtain rfl := Option.some.inj h1'
  obtain rfl := Option.some.inj h2'
  obtain rfl := Option.some.inj h3'
  rw [padTo11_eq]
  refine ⟨?_, ?_, ?_, ?_⟩ <;> simp

/-- Witness for C4 at the concrete input `write 5 6 258`. -/
theorem C4_witness :
    splitWS ("write 5 6 258" : String).data =
      ["write".data, "5".data, "6".data, "258".data] ∧
    parse_write "write 5 6 258" = .ok [7, 5, 6, 2, 1, 2, 0, 0, 0, 0, 0] ∧
    ([7, 5, 6, 2, 1, 2, 0, 0, 0, 0, 0] : List Nat)[0]? = some 0x07 ∧
    ([7, 5, 6, 2, 1, 2, 0, 0, 0, 0, 0] : List Nat)[1]? = some 5 ∧
    ([7, 5, 6, 2, 1, 2, 0, 0, 0, 0, 0] : List Nat)[2]? = some 6 ∧
    ([7, 5, 6, 2, 1, 2, 0, 0, 0, 0, 0] : List Nat)[3]? =
      some ((toBeBytes 258).filter (fun b => b != 0)).length := by
  refine ⟨by decide, rfl, ?_⟩
  have h := C4_frame_header "write 5 6 258" "write".data "5".data "6".data
    "258".data 5 6 258 [7, 5, 6, 2, 1, 2, 0, 0, 0, 0, 0] (by decide) (by decide)
    (by decide) (by decide) rfl
  exact ⟨h.1, h.2.1, h.2.2.1, h.2.2.2⟩

/-- Claim C5: for every 4-token command line whose numeric tokens parse in
range and whose param_value equals 0, encoding succeeds with payload_length
(byte 3) equal to 0 and all of bytes 4 through 10 equal to zero. -/
theorem C5_zero_payload (cmd : String) (t0 t1 t2 t3 : List Char) (n p : Nat)
    (hs : splitWS cmd.data = [t0, t1, t2, t3])
    (h1 : parseUnsigned 255 t1 = some n) (h2 : parseUnsigned 255 t2 = some p)
    (h3 : parseUnsigned (2 ^ 64 - 1) t3 = some 0) :
    parse_write cmd = .ok [0x07, n, p, 0, 0, 0, 0, 0, 0, 0, 0] :=
  parse_write_ok_of cmd t0 t1 t2 t3 n p 0 hs h1 h2 h3 (by decide)

/-- Witness for C5 at the concrete input `write 1 1 0`. -/
theorem C5_witness :
    parse_write "write 1 1 0" = .ok [0x07, 1, 1, 0, 0, 0, 0, 0, 0, 0, 0] :=
  C5_zero_payload "write 1 1 0" "write".data "1".data "1".data "0".data 1 1
    (by decide) (by decide) (by decide) (by decide)

/-- Claim C6: for every command string that does not split into exactly 4
whitespace-delimited tokens, encoding fails with `MalformedCommand` and with
no other error. -/
theorem C6_wrong_token_count (cmd : String)
    (h : (splitWS cmd.data).length ≠ 4) :
    parse_write cmd = .error .MalformedCommand := by
  unfold parse_write
  rcases hs : splitWS cmd.data with _ | ⟨a, _ | ⟨b, _ | ⟨c, _ | ⟨d, _ | ⟨e, l⟩⟩⟩⟩⟩ <;>
    simp_all

/-- Witness for C6 at the 3-token input `write 1 2`. -/
theorem C6_witness :
    (splitWS ("write 1 2" : String).data).length ≠ 4 ∧
    parse_write "write 1 2" = .error .MalformedCommand :=
  ⟨by decide, C6_wrong_token_count "write 1 2" (by decide)⟩

/-- Claim C7: for every 4-token command line in which token 1 does not parse
as a `u8`, or token 2 does not parse as a `u8`, or token 3 does not parse as a
`u64`, encoding fails with `InvalidField` and no partial frame is produced. -/
theorem C7_invalid_field (cmd : String) (t0 t1 t2 t3 : List Char)
    (hs : splitWS cmd.data = [t0, t1, t2, t3])
    (hfail : parseUnsigned 255 t1 = none ∨ parseUnsigned 255 t2 = none ∨
      parseUnsigned (2 ^ 64 - 1) t3 = none) :
    parse_write cmd = .error .InvalidField := by
  unfold parse_write
  rw [hs]
  rcases h1 : parseUnsigned 255 t1 with _ | n <;>
    rcases h2 : parseUnsigned 255 t2 with _ | p <;>
      rcases h3 : parseUnsigned (2 ^ 64 - 1) t3 with _ | v <;>
        simp_all

/-- Witness for C7 at the input `write 256 2 5`: the node_id token `256` is
out of the 8-bit range. -/
theorem C7_witness :
    parseUnsigned 255 ("256" : String).data = none ∧
    parse_write "write 256 2 5" = .error .InvalidField :=
  ⟨by decide, C7_invalid_field "write 256 2 5" "write".data "256".data "2".data
    "5".data (by decide) (Or.inl (by decide))⟩

/-- Counterexample to claim C8 as stated: `write 1 1 18446744073709551615`
splits into exactly 4 tokens and all three numeric fields parse in range
(param_value is the u64 maximum 2^64 - 1), yet encoding does not succeed: all
8 big-endian bytes are nonzero, so it fails with `PayloadTooLarge`. -/
theorem C8_counterexample :
    splitWS ("write 1 1 18446744073709551615" : String).data =
      ["write".data, "1".data, "1".data, "18446744073709551615".data] ∧
    parseUnsigned 255 ("1" : String).data = some 1 ∧
    parseUnsigned (2 ^ 64 - 1) ("18446744073709551615" : String).data =
      some (2 ^ 64 - 1) ∧
    parse_write "write 1 1 18446744073709551615" = .error .PayloadTooLarge :=
  ⟨by decide, by decide, by decide, rfl⟩

/-- Claim C8 (amended): the encoder does not validate the first token.  For
every command line that splits into exactly 4 whitespace-delimited tokens
whose numeric fields 1–3 parse in range, and whose param_value keeps at most
7 nonzero bytes in its 8-byte big-endian representation, encoding succeeds
regardless of the content of token 0 (here `t0` is arbitrary). -/
theorem C8_token0_irrelevant (cmd : String) (t0 t1 t2 t3 : List Char) (n p v : Nat)
    (hs : splitWS cmd.data = [t0, t1, t2, t3])
    (h1 : parseUnsigned 255 t1 = some n) (h2 : parseUnsigned 255 t2 = some p)
    (h3 : parseUnsigned (2 ^ 64 - 1) t3 = some v)
    (hle : ((toBeBytes v).filter (fun b => b != 0)).length ≤ 7) :
    ∃ data, parse_write cmd = .ok data :=
  ⟨_, parse_write_ok_of cmd t0 t1 t2 t3 n p v hs h1 h2 h3 hle⟩

/-- Witness for C8 at the input `launch 3 4 5`, whose first token is not the
literal `write`. -/
theorem C8_witness :
    splitWS ("launch 3 4 5" : String).data =
      ["launch".data, "3".data, "4".data, "5".data] ∧
    ∃ data, parse_write "launch 3 4 5" = .ok data :=
  ⟨by decide, C8_token0_irrelevant "launch 3 4 5" "launch".data "3".data
    "4".data "5".data 3 4 5 (by decide) (by decide) (by decide) (by decide)
    (by decide)⟩

/-- Claim C10 (implicit invariant): on a 4-token command with all fields
parsed, encoding fails with `PayloadTooLarge` exactly when all 8 big-endian
bytes of param_value are nonzero; and on success, byte 3 counts the nonzero
bytes of the full 8-byte representation, the payload `data[4..4+data[3]]` is
exactly the subsequence of nonzero bytes of that representation in order, and
every payload byte is nonzero. -/
theorem C10_nonzero_payload (cmd : String) (t0 t1 t2 t3 : List Char) (n p v : Nat)
    (hs : splitWS cmd.data = [t0, t1, t2, t3])
    (h1 : parseUnsigned 255 t1 = some n) (h2 : parseUnsigned 255 t2 = some p)
    (h3 : parseUnsigned (2 ^ 64 - 1) t3 = some v) :
    (parse_write cmd = .error .PayloadTooLarge ↔ ∀ b ∈ toBeBytes v, b ≠ 0) ∧
    ∀ data, parse_write cmd = .ok data →
      data[3]? = some ((toBeBytes v).countP (fun b => b != 0)) ∧
      (data.drop 4).take ((toBeBytes v).filter (fun b => b != 0)).length =
        (toBeBytes v).filter (fun b => b != 0) ∧
      ∀ b ∈ (toBeBytes v).filter (fun b => b != 0), b ≠ 0 := by
  have hlen8 : (toBeBytes v).length = 8 := rfl
  by_cases hgt : 7 < ((toBeBytes v).filter (fun b => b != 0)).length
  · have herr := parse_write_too_large cmd t0 t1 t2 t3 n p v hs h1 h2 h3 hgt
    constructor
    · constructor
      · intro _
        have hle8 := List.length_filter_le (fun b => b != 0) (toBeBytes v)
        have hfl : ((toBeBytes v).filter (fun b => b != 0)).length =
            (toBeBytes v).length := by omega
        have hall := List.filter_length_eq_length.mp hfl
        intro b hb
        simpa using hall b hb
      · intro _; exact herr
    · intro data hok
      rw [herr] at hok
      exact absurd hok (by simp)
  · have hok := parse_write_ok_of cmd t0 t1 t2 t3 n p v hs h1 h2 h3 (by omega)
    constructor
    · constructor
      · intro herr
        rw [hok] at herr
        exact absurd herr (by simp)
      · intro hall
        have hself : (toBeBytes v).filter (fun b => b != 0) = toBeBytes v :=
          List.filter_eq_self.mpr (fun a ha => by simpa using hall a ha)
        rw [hself, hlen8] at hgt
        omega
    · intro data hdata
      rw [hok] at hdata
      obtain rfl := (Except.ok.inj hdata).symm
      rw [padTo11_eq]
      refine ⟨?_, ?_, ?_⟩
      · rw [List.countP_eq_length_filter]
        simp
      · simp only [List.drop_succ_cons, List.drop_zero]
        exact List.take_left _ _
      · intro b hb
        simpa using List.of_mem_filter hb

/-- Witness for C10 at the concrete input `write 2 3 567`. -/
theorem C10_witness :
    (parse_write "write 2 3 567" = .error .PayloadTooLarge ↔
      ∀ b ∈ toBeBytes 567, b ≠ 0) ∧
    ∀ data, parse_write "write 2 3 567" = .ok data →
      data[3]? = some ((toBeBytes 567).countP (fun b => b != 0)) ∧
      (data.drop 4).take ((toBeBytes 567).filter (fun b => b != 0)).length =
        (toBeBytes 567).filter (fun b => b != 0) ∧
      ∀ b ∈ (toBeBytes 567).filter (fun b => b != 0), b ≠ 0 :=
  C10_nonzero_payload "write 2 3 567" "write".data "2".data "3".data "567".data
    2 3 567 (by decide) (by decide) (by decide) (by decide)

end Arcane
